import Mathlib

/-!
Shallow embedding of the `st7735` Go driver (asssaf/st7735-go) and proofs
of specification claims about it.

The driver translates high-level operations (initialize, set-window,
display-image, backlight, powersave) into SPI transactions, data/command
GPIO line toggles and delays.  We embed the protocol-relevant code as pure
Lean functions that thread an explicit `RunState` (the trace of emitted
events plus counters of fallible actions) and consult `Oracles` deciding
which GPIO writes / transport transactions succeed.

Bytes are `Nat` (values understood modulo 256 where Go performs `byte`
arithmetic); Go `int` coordinates are `Int`, with `byte(x)` embedded as
`(x % 256).toNat` (Euclidean mod, matching two's-complement truncation)
and the arithmetic shift `x >> 8` embedded as `Int.fdiv x 256` (floor
division, matching Go's arithmetic shift on signed integers).
-/

namespace ST7735

set_option maxRecDepth 2000

/-! ### Command opcodes (from the `const` block of the driver) -/

def ST7735_SWRESET : Nat := 0x01
def ST7735_SLPIN   : Nat := 0x10
def ST7735_SLPOUT  : Nat := 0x11
def ST7735_FRMCTR1 : Nat := 0xB1
def ST7735_FRMCTR2 : Nat := 0xB2
def ST7735_FRMCTR3 : Nat := 0xB3
def ST7735_INVCTR  : Nat := 0xB4
def ST7735_INVOFF  : Nat := 0x20
def ST7735_INVON   : Nat := 0x21
def ST7735_PWCTR1  : Nat := 0xC0
def ST7735_PWCTR2  : Nat := 0xC1
def ST7735_PWCTR4  : Nat := 0xC3
def ST7735_PWCTR5  : Nat := 0xC4
def ST7735_VMCTR1  : Nat := 0xC5
def ST7735_MADCTL  : Nat := 0x36
def ST7735_COLMOD  : Nat := 0x3A
def ST7735_CASET   : Nat := 0x2A
def ST7735_RASET   : Nat := 0x2B
def ST7735_RAMWR   : Nat := 0x2C
def ST7735_GMCTRP1 : Nat := 0xE0
def ST7735_GMCTRN1 : Nat := 0xE1
def ST7735_NORON   : Nat := 0x13
def ST7735_DISPON  : Nat := 0x29
def ST7735_TFTWIDTH  : Nat := 80
def ST7735_TFTHEIGHT : Nat := 160
def ST7735_COLS : Nat := 132
def ST7735_ROWS : Nat := 162

def ChunkSize : Nat := 4096

/-! ### Device configuration (`Opts`); fields are Go `byte`s, so < 256 -/

structure Opts where
  width      : Nat
  height     : Nat
  offsetLeft : Nat
  offsetTop  : Nat
deriving DecidableEq, Repr

def DefaultOpts : Opts :=
  ⟨ST7735_TFTWIDTH, ST7735_TFTHEIGHT,
   (ST7735_COLS - ST7735_TFTWIDTH) / 2, (ST7735_ROWS - ST7735_TFTHEIGHT) / 2⟩

/-! ### Execution model: events, run state, failure oracles

`Event.dc b` is a write to the data/command select line (`true` = high =
data phase); `Event.tx bs` is an attempted SPI transaction carrying bytes
`bs`; `Event.sleepMs n` is a blocking `time.Sleep`; `Event.backlight b` is
a write to the backlight GPIO. -/

inductive Event where
  | dc (high : Bool)
  | tx (bytes : List Nat)
  | sleepMs (ms : Nat)
  | backlight (high : Bool)
deriving DecidableEq, Repr

structure RunState where
  events   : List Event
  gpioCount : Nat
  txCount   : Nat
deriving DecidableEq, Repr

/-- Initial run state: empty trace, no actions attempted yet. -/
def s0 : RunState := ⟨[], 0, 0⟩

/-- Failure oracles: `gpioOk n` decides whether the `n`-th write to the
data/command line succeeds, `txOk n` whether the `n`-th SPI transaction
succeeds, `blOk n` whether the `n`-th backlight GPIO write succeeds. -/
structure Oracles where
  gpioOk : Nat → Bool
  txOk   : Nat → Bool
  blOk   : Nat → Bool

/-- The all-success oracle. -/
def allOk : Oracles := ⟨fun _ => true, fun _ => true, fun _ => true⟩

/-- `d.dc.Out(level)`: record the write, consult the GPIO oracle. -/
def dcOut (o : Oracles) (high : Bool) (s : RunState) : RunState × Bool :=
  (⟨s.events ++ [Event.dc high], s.gpioCount + 1, s.txCount⟩, o.gpioOk s.gpioCount)

/-- `d.c.Tx(bytes, nil)`: record the attempted transaction, consult the
transport oracle. -/
def txn (o : Oracles) (bytes : List Nat) (s : RunState) : RunState × Bool :=
  (⟨s.events ++ [Event.tx bytes], s.gpioCount, s.txCount + 1⟩, o.txOk s.txCount)

/-! ### Send primitives -/

/-- One protocol step as built by the driver: opcode bytes, parameter
bytes (`[]` embeds Go `nil`), and a settle delay in milliseconds. -/
structure commandAndData where
  cmd     : List Nat
  data    : List Nat
  sleepMs : Nat
deriving DecidableEq, Repr

/-- `sendCommand`: pull dc low, then one transaction with the opcode. -/
def sendCommand (o : Oracles) (c : List Nat) (s : RunState) : RunState × Bool :=
  let r := dcOut o false s
  if !r.2 then (r.1, false) else txn o c r.1

/-- The successive slices taken by the loop of `sendData`:
`for offset := 0; offset < len(c); offset += ChunkSize` runs
`⌈len(c) / ChunkSize⌉` times, and iteration `i` slices
`c[i*ChunkSize : min((i+1)*ChunkSize, len(c))]`, i.e.
`(c.drop (i * ChunkSize)).take ChunkSize`. -/
def chunks (c : List Nat) : List (List Nat) :=
  (List.range ((c.length + (ChunkSize - 1)) / ChunkSize)).map
    (fun i => (c.drop (i * ChunkSize)).take ChunkSize)

/-- The chunked transaction loop of `sendData`, aborting on the first
transport failure. -/
def sendDataLoop (o : Oracles) : List (List Nat) → RunState → RunState × Bool
  | [], s => (s, true)
  | ch :: rest, s =>
    let r := txn o ch s
    if !r.2 then (r.1, false) else sendDataLoop o rest r.1

/-- `sendData`: pull dc high, then transmit the payload in `ChunkSize`
slices, aborting on the first failure. -/
def sendData (o : Oracles) (c : List Nat) (s : RunState) : RunState × Bool :=
  let r := dcOut o true s
  if !r.2 then (r.1, false) else sendDataLoop o (chunks c) r.1

/-- `sendBatch`: for each step send the opcode; on empty parameter list
`continue` (which in the Go source skips the sleep as well); otherwise
send the data and then sleep if a positive delay is attached. -/
def sendBatch (o : Oracles) : List commandAndData → RunState → RunState × Bool
  | [], s => (s, true)
  | cad :: rest, s =>
    let r1 := sendCommand o cad.cmd s
    if !r1.2 then (r1.1, false)
    else if cad.data.length = 0 then sendBatch o rest r1.1
    else
      let r2 := sendData o cad.data r1.1
      if !r2.2 then (r2.1, false)
      else
        let s3 :=
          if cad.sleepMs > 0 then
            ⟨r2.1.events ++ [Event.sleepMs cad.sleepMs], r2.1.gpioCount, r2.1.txCount⟩
          else r2.1
        sendBatch o rest s3

/-- The events one batch step emits when every action succeeds (command
phase, then — when parameter bytes are present — data phase and the
optional sleep; an empty parameter list `continue`s, skipping the
sleep). -/
def cadEvents (cad : commandAndData) : List Event :=
  [Event.dc false, Event.tx cad.cmd]
    ++ (if cad.data.length = 0 then []
        else [Event.dc true] ++ (chunks cad.data).map Event.tx
          ++ (if cad.sleepMs > 0 then [Event.sleepMs cad.sleepMs] else []))

/-- The events a whole batch emits when every action succeeds. -/
def batchEvents (l : List commandAndData) : List Event :=
  l.flatMap cadEvents

/-- Number of dc-line writes one fully-successful batch step performs. -/
def cadGpio (cad : commandAndData) : Nat :=
  if cad.data.length = 0 then 1 else 2

/-- Number of transport transactions one fully-successful batch step
performs. -/
def cadTx (cad : commandAndData) : Nat :=
  if cad.data.length = 0 then 1 else 1 + (chunks cad.data).length

/-! ### Initialization (`Init`) -/

/-- The `init` list built inside `Dev.Init`.  Go `byte` arithmetic
`width + offsetLeft - 1` wraps modulo 256; since `-1 ≡ 255 (mod 256)` we
embed it as `(width + offsetLeft + 255) % 256` (and likewise for rows),
which agrees with Go for all byte-valued fields. -/
def initBatch (opts : Opts) : List commandAndData :=
  [⟨[ST7735_SWRESET], [], 150⟩,
   ⟨[ST7735_SLPOUT], [], 500⟩,
   ⟨[ST7735_FRMCTR1], [0x01, 0x2C, 0x2D], 0⟩,
   ⟨[ST7735_FRMCTR2], [0x01, 0x2C, 0x2D], 0⟩,
   ⟨[ST7735_FRMCTR3], [0x01, 0x2C, 0x2D, 0x01, 0x2C, 0x2D], 0⟩,
   ⟨[ST7735_INVCTR], [0x07], 0⟩,
   ⟨[ST7735_PWCTR1], [0xA2, 0x02, 0x84], 0⟩,
   ⟨[ST7735_PWCTR2], [0x0A, 0x00], 0⟩,
   ⟨[ST7735_PWCTR4], [0x8A, 0x2A], 0⟩,
   ⟨[ST7735_PWCTR5], [0x8A, 0xEE], 0⟩,
   ⟨[ST7735_VMCTR1], [0x0E], 0⟩,
   ⟨[ST7735_INVON], [], 0⟩,
   ⟨[ST7735_MADCTL], [0xC8], 0⟩,
   ⟨[ST7735_COLMOD], [0x05], 0⟩,
   ⟨[ST7735_CASET],
     [0x00, opts.offsetLeft, 0x00, (opts.width + opts.offsetLeft + 255) % 256], 0⟩,
   ⟨[ST7735_RASET],
     [0x00, opts.offsetTop, 0x00, (opts.height + opts.offsetTop + 255) % 256], 0⟩,
   ⟨[ST7735_GMCTRP1],
     [0x02, 0x1c, 0x07, 0x12, 0x37, 0x32, 0x29, 0x2d, 0x29, 0x25, 0x2B,
      0x39, 0x00, 0x01, 0x03, 0x10], 0⟩,
   ⟨[ST7735_GMCTRN1],
     [0x03, 0x1d, 0x07, 0x06, 0x2E, 0x2C, 0x29, 0x2D, 0x2E, 0x2E, 0x37,
      0x3F, 0x00, 0x00, 0x02, 0x10], 0⟩,
   ⟨[ST7735_NORON], [], 100⟩,
   ⟨[ST7735_DISPON], [], 100⟩]

/-- `Dev.Init`: send the initialization batch. -/
def Init (o : Oracles) (opts : Opts) (s : RunState) : RunState × Bool :=
  sendBatch o (initBatch opts) s

/-! ### Backlight (`SetBacklight`) -/

/-- `Dev.SetBacklight`: returns nothing (no error type).  When no
backlight pin is configured (`hasBacklight = false`) it returns at once;
otherwise it drives the pin and discards the result of the GPIO write
(the Go source never inspects the error returned by `backlight.Out`), so
the run state does not depend on the backlight oracle. -/
def SetBacklight (o : Oracles) (hasBacklight : Bool) (value : Bool) (s : RunState) :
    RunState :=
  if !hasBacklight then s
  else
    let _ := o.blOk 0
    ⟨s.events ++ [Event.backlight value], s.gpioCount, s.txCount⟩

/-! ### Color packing (`RGBATo565`) -/

/-- `color.RGBA`: four Go `uint8` channels. -/
structure RGBA where
  r : Nat
  g : Nat
  b : Nat
  a : Nat
deriving DecidableEq, Repr

/-- `color.RGBA.RGBA()` channel expansion: `v = uint32(c.X); v |= v << 8`
for a `uint8` field. -/
def rgbaExpand (v : Nat) : Nat :=
  (v % 256) ||| ((v % 256) <<< 8)

/-- `RGBATo565`: pack an RGBA color into the 16-bit 5-6-5 framebuffer
format.  The Go result type is `uint16`, hence the final `% 65536`. -/
def RGBATo565 (c : RGBA) : Nat :=
  ((rgbaExpand c.r &&& 0xF800) +
   ((rgbaExpand c.g &&& 0xFC00) >>> 5) +
   ((rgbaExpand c.b &&& 0xF800) >>> 11)) % 65536

/-! ### Geometry (Go `image.Point` / `image.Rectangle`) -/

structure Point where
  x : Int
  y : Int
deriving DecidableEq, Repr

structure Rectangle where
  min : Point
  max : Point
deriving DecidableEq, Repr

/-- `image.Rectangle.Empty`. -/
def Rectangle.isEmptyRect (r : Rectangle) : Bool :=
  r.min.x ≥ r.max.x || r.min.y ≥ r.max.y

/-- The zero rectangle `image.ZR`. -/
def Rectangle.zr : Rectangle := ⟨⟨0, 0⟩, ⟨0, 0⟩⟩

/-- `image.Rectangle.Add`. -/
def Rectangle.add (r : Rectangle) (p : Point) : Rectangle :=
  ⟨⟨r.min.x + p.x, r.min.y + p.y⟩, ⟨r.max.x + p.x, r.max.y + p.y⟩⟩

/-- `image.Rectangle.Sub`. -/
def Rectangle.sub (r : Rectangle) (p : Point) : Rectangle :=
  ⟨⟨r.min.x - p.x, r.min.y - p.y⟩, ⟨r.max.x - p.x, r.max.y - p.y⟩⟩

/-- `image.Rectangle.Intersect`: clamp, then return `ZR` when empty. -/
def Rectangle.intersect (r s : Rectangle) : Rectangle :=
  let t : Rectangle :=
    ⟨⟨Max.max r.min.x s.min.x, Max.max r.min.y s.min.y⟩,
     ⟨Min.min r.max.x s.max.x, Min.min r.max.y s.max.y⟩⟩
  if t.isEmptyRect then Rectangle.zr else t

/-! ### Window addressing (`SetWindow`) -/

/-- Go `byte(x)` on a signed `int`: the low 8 bits, i.e. `x mod 256`. -/
def byteOfInt (x : Int) : Nat := (x % 256).toNat

/-- Go `x >> 8` on a signed `int`: arithmetic shift = floor division. -/
def shr8 (x : Int) : Int := Int.fdiv x 256

/-- The three-step batch built by `Dev.SetWindow` after adding the panel
offsets to all four coordinates. -/
def setWindowCmds (opts : Opts) (x0 y0 x1 y1 : Int) : List commandAndData :=
  let y0a := y0 + (opts.offsetTop : Int)
  let y1a := y1 + (opts.offsetTop : Int)
  let x0a := x0 + (opts.offsetLeft : Int)
  let x1a := x1 + (opts.offsetLeft : Int)
  [⟨[ST7735_CASET],
    [byteOfInt (shr8 x0a), byteOfInt x0a, byteOfInt (shr8 x1a), byteOfInt x1a], 0⟩,
   ⟨[ST7735_RASET],
    [byteOfInt (shr8 y0a), byteOfInt y0a, byteOfInt (shr8 y1a), byteOfInt y1a], 0⟩,
   ⟨[ST7735_RAMWR], [], 0⟩]

/-- `Dev.SetWindow`. -/
def SetWindow (o : Oracles) (opts : Opts) (x0 y0 x1 y1 : Int) (s : RunState) :
    RunState × Bool :=
  sendBatch o (setWindowCmds opts x0 y0 x1 y1) s

/-! ### Image display (`DisplayImage`) -/

/-- An `image.RGBA`: its bounds and its pixel contents (the color
`At (x, y)` returns inside the bounds). -/
structure Image where
  bounds : Rectangle
  px : Int → Int → RGBA

/-- The `Int` interval `[lo, hi)` traversed by a Go `for v := lo; v < hi;
v++` loop. -/
def intRange (lo hi : Int) : List Int :=
  (List.range (hi - lo).toNat).map (fun i => lo + Int.ofNat i)

/-- The pixel byte buffer built by the nested loops of `DisplayImage`:
outer loop over x, inner loop over y, two big-endian bytes per packed
16-bit pixel. -/
def pixelBuf (img : Image) (bounds : Rectangle) : List Nat :=
  (intRange bounds.min.x bounds.max.x).flatMap (fun x =>
    (intRange bounds.min.y bounds.max.y).flatMap (fun y =>
      [(RGBATo565 (img.px x y) >>> 8) % 256, RGBATo565 (img.px x y) % 256]))

/-- The visible panel rectangle `(0,0)-(width,height)` (`maxBounds`). -/
def visibleRect (opts : Opts) : Rectangle :=
  ⟨⟨0, 0⟩, ⟨(opts.width : Int), (opts.height : Int)⟩⟩

/-- `Dev.DisplayImage`: clip the offset image bounds to the visible
rectangle, set the window to the clipped rectangle, then stream the
packed pixels of the clipped region. -/
def DisplayImage (o : Oracles) (opts : Opts) (x y : Int) (img : Image)
    (s : RunState) : RunState × Bool :=
  let offsetBounds := (img.bounds.add ⟨x, y⟩).intersect (visibleRect opts)
  let bounds := offsetBounds.sub ⟨x, y⟩
  let r1 := SetWindow o opts offsetBounds.min.x offsetBounds.min.y
              (offsetBounds.max.x - 1) (offsetBounds.max.y - 1) s
  if !r1.2 then (r1.1, false)
  else sendData o (pixelBuf img bounds) r1.1

/-! ### Auxiliary definitions used by the verification statements -/

/-- The big-endian two-byte rendering of a 16-bit value, as the spec
describes it: high byte `v >> 8`, low byte `v mod 256`. -/
def bigEndian16 (v : Int) : List Nat :=
  [v.toNat / 256, v.toNat % 256]

/-- Number of transport transactions a full batch issues when it runs to
completion. -/
def batchTxTotal (l : List commandAndData) : Nat :=
  (l.map cadTx).sum

/-- Is an event a blocking sleep? -/
def Event.isSleep : Event → Bool
  | Event.sleepMs _ => true
  | _ => false

/-- Is an event an (attempted) transport transaction? -/
def Event.isTx : Event → Bool
  | Event.tx _ => true
  | _ => false

/-- A concrete 10×10 test image (all pixels one fixed color). -/
def testImg : Image := ⟨⟨⟨0, 0⟩, ⟨10, 10⟩⟩, fun _ _ => ⟨17, 35, 250, 255⟩⟩

/-- A concrete 100×200 test image, larger than the default panel. -/
def bigImg : Image := ⟨⟨⟨0, 0⟩, ⟨100, 200⟩⟩, fun _ _ => ⟨255, 0, 0, 255⟩⟩

/-- An oracle whose transport fails exactly on transaction index 1. -/
def failAt1 : Oracles := ⟨fun _ => true, fun n => n != 1, fun _ => true⟩

/-! ## Helper lemmas -/

/-- Reduce a bound of 256 to two nested bounds of 16 (keeps bounded
`decide` within the elaborator's recursion limits). -/
theorem ball256 (P : Nat → Prop) (h : ∀ a, a < 16 → ∀ b, b < 16 → P (16 * a + b)) :
    ∀ r, r < 256 → P r := by
  intro r hr
  have h2 := h (r / 16) (by omega) (r % 16) (by omega)
  have hsplit : 16 * (r / 16) + r % 16 = r := by omega
  rwa [hsplit] at h2

theorem expand_red (r : Nat) (hr : r < 256) :
    rgbaExpand r &&& 0xF800 = (r >>> 3) <<< 11 :=
  ball256 (fun v => rgbaExpand v &&& 0xF800 = (v >>> 3) <<< 11) (by decide) r hr

theorem expand_green (g : Nat) (hg : g < 256) :
    (rgbaExpand g &&& 0xFC00) >>> 5 = (g >>> 2) <<< 5 :=
  ball256 (fun v => (rgbaExpand v &&& 0xFC00) >>> 5 = (v >>> 2) <<< 5) (by decide) g hg

theorem expand_blue (b : Nat) (hb : b < 256) :
    (rgbaExpand b &&& 0xF800) >>> 11 = b >>> 3 :=
  ball256 (fun v => (rgbaExpand v &&& 0xF800) >>> 11 = v >>> 3) (by decide) b hb

theorem red_field (r : Nat) (hr : r < 256) :
    (r >>> 3) <<< 11 = (r &&& 0xF8) <<< 8 :=
  ball256 (fun v => (v >>> 3) <<< 11 = (v &&& 0xF8) <<< 8) (by decide) r hr

theorem green_field (g : Nat) (hg : g < 256) :
    (g >>> 2) <<< 5 = (g &&& 0xFC) <<< 3 :=
  ball256 (fun v => (v >>> 2) <<< 5 = (v &&& 0xFC) <<< 3) (by decide) g hg

theorem or_add_disjoint :
    ∀ a, a < 32 → ∀ bb, bb < 64 → ∀ c, c < 32 →
      (a <<< 11) + (bb <<< 5) + c = ((a <<< 11) ||| (bb <<< 5)) ||| c := by
  decide

/-! ## Claim C3: RGBA → 565 color packing -/

/-- Claim C3: for all 8-bit channel values `r`, `g`, `b` (alpha ignored),
`RGBATo565` returns `((r &&& 0xF8) <<< 8) ||| ((g &&& 0xFC) <<< 3) |||
(b >>> 3)`; it is a pure total function, and it takes the five listed
particular values. -/
theorem rgbaTo565_spec :
    (∀ (r g b a : Nat), r < 256 → g < 256 → b < 256 →
       RGBATo565 ⟨r, g, b, a⟩ =
         ((r &&& 0xF8) <<< 8) ||| ((g &&& 0xFC) <<< 3) ||| (b >>> 3))
    ∧ RGBATo565 ⟨0, 0, 0, 255⟩ = 0x0000
    ∧ RGBATo565 ⟨255, 255, 255, 255⟩ = 0xFFFF
    ∧ RGBATo565 ⟨255, 0, 0, 255⟩ = 0xF800
    ∧ RGBATo565 ⟨0, 255, 0, 255⟩ = 0x07E0
    ∧ RGBATo565 ⟨0, 0, 255, 255⟩ = 0x001F := by
  refine ⟨?_, by decide, by decide, by decide, by decide, by decide⟩
  intro r g b a hr hg hb
  have b1 : r >>> 3 < 32 := by rw [Nat.shiftRight_eq_div_pow]; omega
  have b2 : g >>> 2 < 64 := by rw [Nat.shiftRight_eq_div_pow]; omega
  have b3 : b >>> 3 < 32 := by rw [Nat.shiftRight_eq_div_pow]; omega
  have hsum : ((r >>> 3) <<< 11) + ((g >>> 2) <<< 5) + (b >>> 3) < 65536 := by
    rw [Nat.shiftLeft_eq, Nat.shiftLeft_eq,
        show (2 : Nat) ^ 11 = 2048 from rfl, show (2 : Nat) ^ 5 = 32 from rfl]
    omega
  show ((rgbaExpand r &&& 0xF800) + ((rgbaExpand g &&& 0xFC00) >>> 5) +
        ((rgbaExpand b &&& 0xF800) >>> 11)) % 65536 = _
  rw [expand_red r hr, expand_green g hg, expand_blue b hb,
      Nat.mod_eq_of_lt hsum,
      or_add_disjoint (r >>> 3) b1 (g >>> 2) b2 (b >>> 3) b3,
      red_field r hr, green_field g hg]

/-- Witness for C3: the packing formula instantiated at a concrete
input. -/
theorem rgbaTo565_spec_witness :
    RGBATo565 ⟨17, 35, 250, 4⟩ =
      ((17 &&& 0xF8) <<< 8) ||| ((35 &&& 0xFC) <<< 3) ||| (250 >>> 3) :=
  rgbaTo565_spec.1 17 35 250 4 (by decide) (by decide) (by decide)

/-! ## Claim C4: SetWindow with the default geometry -/

/-- Claim C4: with the default geometry (80×160 panel, offsets 26/1),
`SetWindow 0 0 79 159` issues column-address-set with parameter bytes
`(0,26,0,105)`, row-address-set with `(0,1,0,160)` and then the
memory-write opcode with no payload. -/
theorem setWindow_default_geometry :
    SetWindow allOk DefaultOpts 0 0 79 159 s0 =
      (⟨[Event.dc false, Event.tx [ST7735_CASET],
         Event.dc true, Event.tx [0, 26, 0, 105],
         Event.dc false, Event.tx [ST7735_RASET],
         Event.dc true, Event.tx [0, 1, 0, 160],
         Event.dc false, Event.tx [ST7735_RAMWR]], 5, 5⟩, true) := by
  decide

/-! ## Claim C9: SetBacklight -/

/-- Claim C9: `SetBacklight` never returns an error (its result type has
no error component); with no backlight pin configured it is a silent
no-op (run state unchanged: no GPIO write, no transaction); with a pin
configured it drives the pin high/low according to the argument, and the
result does not depend on the backlight GPIO oracle (failures are
swallowed). -/
theorem setBacklight_spec :
    (∀ (o : Oracles) (v : Bool) (s : RunState), SetBacklight o false v s = s)
    ∧ (∀ (o : Oracles) (v : Bool) (s : RunState),
        SetBacklight o true v s =
          ⟨s.events ++ [Event.backlight v], s.gpioCount, s.txCount⟩) :=
  ⟨fun _ _ _ => rfl, fun _ _ _ => rfl⟩

/-! ## Chunking lemmas -/

theorem chunks_nil : chunks [] = [] := rfl

theorem chunks_cons (c : List Nat) (h : c ≠ []) :
    chunks c = c.take ChunkSize :: chunks (c.drop ChunkSize) := by
  have hlen : 0 < c.length := List.length_pos.mpr h
  simp only [chunks]
  rw [show (c.length + (ChunkSize - 1)) / ChunkSize
      = ((c.drop ChunkSize).length + (ChunkSize - 1)) / ChunkSize + 1 from by
        simp only [List.length_drop, ChunkSize]; omega]
  rw [List.range_succ_eq_map]
  simp only [List.map_cons, Nat.zero_mul, List.drop_zero, List.map_map]
  rw [List.cons_eq_cons]
  refine ⟨rfl, ?_⟩
  apply List.map_congr_left
  intro i _
  simp only [Function.comp_apply, List.drop_drop]
  rw [show Nat.succ i * ChunkSize = ChunkSize + i * ChunkSize from by
    simp only [ChunkSize]; omega]

theorem chunks_flatten_aux : ∀ (n : Nat) (c : List Nat), c.length ≤ n →
    (chunks c).flatten = c := by
  intro n
  induction n with
  | zero =>
    intro c hc
    have hz : c = [] := List.length_eq_zero.mp (Nat.le_zero.mp hc)
    subst hz
    rfl
  | succ n ih =>
    intro c hc
    by_cases h : c = []
    · subst h; rfl
    · have hlen : 0 < c.length := List.length_pos.mpr h
      rw [chunks_cons c h, List.flatten_cons, ih (c.drop ChunkSize) ?_,
          List.take_append_drop]
      simp only [List.length_drop, ChunkSize]
      omega

theorem chunks_flatten (c : List Nat) : (chunks c).flatten = c :=
  chunks_flatten_aux c.length c (Nat.le_refl _)

theorem chunks_length (c : List Nat) :
    (chunks c).length = (c.length + (ChunkSize - 1)) / ChunkSize := by
  simp [chunks]

theorem chunks_get_front (c : List Nat) (i : Fin (chunks c).length)
    (h : (i : Nat) + 1 < (chunks c).length) :
    ((chunks c).get i).length = ChunkSize := by
  have hlen := chunks_length c
  have hget : (chunks c).get i = (c.drop ((i : Nat) * ChunkSize)).take ChunkSize := by
    simp [chunks]
  have hle : ChunkSize ≤ (c.drop ((i : Nat) * ChunkSize)).length := by
    have hld := List.length_drop ((i : Nat) * ChunkSize) c
    simp only [ChunkSize] at hlen hld ⊢
    omega
  rw [hget, List.length_take_of_le hle]

theorem chunks_repl :
    chunks (List.replicate (ChunkSize + 1) 0) = [List.replicate ChunkSize 0, [0]] := by
  have hne : List.replicate (ChunkSize + 1) 0 ≠ ([] : List Nat) := by simp
  rw [chunks_cons _ hne, List.take_replicate, List.drop_replicate]
  rw [show Min.min ChunkSize (ChunkSize + 1) = ChunkSize from by
    simp only [ChunkSize]; omega]
  rw [show ChunkSize + 1 - ChunkSize = 1 from by omega]
  rw [show List.replicate 1 (0 : Nat) = [0] from rfl]
  rw [chunks_cons _ (by simp)]
  rw [List.take_of_length_le (by
        simp only [List.length_cons, List.length_nil, ChunkSize]; omega),
      List.drop_eq_nil_of_le (by
        simp only [List.length_cons, List.length_nil, ChunkSize]; omega)]
  rw [chunks_nil]

theorem sendDataLoop_allOk (l : List (List Nat)) (s : RunState) :
    sendDataLoop allOk l s =
      (⟨s.events ++ l.map Event.tx, s.gpioCount, s.txCount + l.length⟩, true) := by
  have ht : ∀ n, allOk.txOk n = true := fun _ => rfl
  induction l generalizing s with
  | nil => simp [sendDataLoop]
  | cons ch rest ih =>
    simp only [sendDataLoop, txn, ht, Bool.not_true, Bool.false_eq_true, if_false,
      List.map_cons, List.length_cons, ih]
    rw [Prod.mk.injEq]
    refine ⟨?_, rfl⟩
    rw [RunState.mk.injEq]
    refine ⟨by rw [List.append_assoc]; rfl, rfl, by omega⟩

/-! ## Claim C6: sendData chunking -/

/-- Claim C6: `sendData` splits the payload into successive transport
transactions: the emitted trace is one data-phase dc toggle followed by
exactly the chunk list; the chunks concatenate back to the payload; every
non-final chunk is exactly `ChunkSize` bytes (so the final one carries
the remainder); and a payload of `ChunkSize + 1` bytes yields two
transactions of sizes `ChunkSize` and 1. -/
theorem sendData_chunking :
    (∀ c : List Nat,
       (sendData allOk c s0).1.events = Event.dc true :: (chunks c).map Event.tx
       ∧ (sendData allOk c s0).2 = true
       ∧ (chunks c).flatten = c
       ∧ ∀ i : Fin (chunks c).length, (i : Nat) + 1 < (chunks c).length →
           ((chunks c).get i).length = ChunkSize)
    ∧ (chunks (List.replicate (ChunkSize + 1) 0)).map List.length = [ChunkSize, 1] := by
  refine ⟨?_, by rw [chunks_repl]; simp⟩
  intro c
  refine ⟨?_, ?_, chunks_flatten c, fun i h => chunks_get_front c i h⟩
  · show (sendDataLoop allOk (chunks c) ⟨[Event.dc true], 1, 0⟩).1.events = _
    rw [sendDataLoop_allOk]
    rfl
  · show (sendDataLoop allOk (chunks c) ⟨[Event.dc true], 1, 0⟩).2 = true
    rw [sendDataLoop_allOk]


/-- Witness for C6: the chunking statement instantiated at the
4097-byte payload. -/
theorem sendData_chunking_witness :
    (sendData allOk (List.replicate (ChunkSize + 1) 0) s0).2 = true
    ∧ ((chunks (List.replicate (ChunkSize + 1) 0)).get
          ⟨0, by rw [chunks_repl]; simp⟩).length = ChunkSize :=
  ⟨(sendData_chunking.1 (List.replicate (ChunkSize + 1) 0)).2.1,
   (sendData_chunking.1 (List.replicate (ChunkSize + 1) 0)).2.2.2
     ⟨0, by rw [chunks_repl]; simp⟩
     (by show 0 + 1 < (chunks (List.replicate (ChunkSize + 1) 0)).length
         rw [chunks_repl]; simp)⟩

/-! ## Claim C10: big-endian window coordinate encoding -/

theorem byte_pair_eq (v : Int) (h0 : 0 ≤ v) (h1 : v ≤ 65535) :
    byteOfInt (shr8 v) = v.toNat / 256 ∧ byteOfInt v = v.toNat % 256 := by
  simp only [byteOfInt, shr8]
  rw [Int.fdiv_eq_ediv _ (by omega)]
  constructor
  · omega
  · omega

/-- Claim C10: when each offset-adjusted coordinate fits in 16 bits,
`SetWindow` emits its exact big-endian 16-bit encoding (high byte
`v >> 8`, low byte `v mod 256`); the high byte is zero exactly when the
adjusted coordinate is below 256 (larger coordinates are encoded, not
truncated). -/
theorem setWindow_bigEndian (opts : Opts) (x0 y0 x1 y1 : Int)
    (hx0 : 0 ≤ x0 + (opts.offsetLeft : Int) ∧ x0 + (opts.offsetLeft : Int) ≤ 65535)
    (hx1 : 0 ≤ x1 + (opts.offsetLeft : Int) ∧ x1 + (opts.offsetLeft : Int) ≤ 65535)
    (hy0 : 0 ≤ y0 + (opts.offsetTop : Int) ∧ y0 + (opts.offsetTop : Int) ≤ 65535)
    (hy1 : 0 ≤ y1 + (opts.offsetTop : Int) ∧ y1 + (opts.offsetTop : Int) ≤ 65535) :
    ((setWindowCmds opts x0 y0 x1 y1).map commandAndData.data =
      [bigEndian16 (x0 + (opts.offsetLeft : Int)) ++ bigEndian16 (x1 + (opts.offsetLeft : Int)),
       bigEndian16 (y0 + (opts.offsetTop : Int)) ++ bigEndian16 (y1 + (opts.offsetTop : Int)),
       []])
    ∧ (∀ v : Int, 0 ≤ v → v ≤ 65535 →
        ((bigEndian16 v).head? = some 0 ↔ v < 256)) := by
  constructor
  · obtain ⟨ex0h, ex0l⟩ := byte_pair_eq _ hx0.1 hx0.2
    obtain ⟨ex1h, ex1l⟩ := byte_pair_eq _ hx1.1 hx1.2
    obtain ⟨ey0h, ey0l⟩ := byte_pair_eq _ hy0.1 hy0.2
    obtain ⟨ey1h, ey1l⟩ := byte_pair_eq _ hy1.1 hy1.2
    simp only [setWindowCmds, bigEndian16, List.map_cons, List.map_nil]
    rw [ex0h, ex0l, ex1h, ex1l, ey0h, ey0l, ey1h, ey1l]
    rfl
  · intro v hv0 hv1
    simp only [bigEndian16, List.head?_cons, Option.some.injEq]
    omega

/-- Witness for C10: the encoding statement at the default geometry with
an x coordinate whose adjusted value (326) exceeds 255. -/
theorem setWindow_bigEndian_witness :
    ((setWindowCmds DefaultOpts 0 0 300 159).map commandAndData.data =
      [bigEndian16 (0 + (DefaultOpts.offsetLeft : Int)) ++ bigEndian16 (300 + (DefaultOpts.offsetLeft : Int)),
       bigEndian16 (0 + (DefaultOpts.offsetTop : Int)) ++ bigEndian16 (159 + (DefaultOpts.offsetTop : Int)),
       []])
    ∧ (∀ v : Int, 0 ≤ v → v ≤ 65535 →
        ((bigEndian16 v).head? = some 0 ↔ v < 256)) :=
  setWindow_bigEndian DefaultOpts 0 0 300 159
    ⟨by decide, by decide⟩ ⟨by decide, by decide⟩
    ⟨by decide, by decide⟩ ⟨by decide, by decide⟩

/-! ## All-success trace lemmas -/

theorem allOk_gpio (n : Nat) : allOk.gpioOk n = true := rfl

theorem allOk_txOk (n : Nat) : allOk.txOk n = true := rfl

theorem chunks_small (c : List Nat) (h0 : c ≠ []) (h1 : c.length ≤ ChunkSize) :
    chunks c = [c] := by
  rw [chunks_cons c h0, List.take_of_length_le h1, List.drop_eq_nil_of_le h1, chunks_nil]

theorem sendData_allOk (c : List Nat) (s : RunState) :
    sendData allOk c s =
      (⟨(s.events ++ [Event.dc true]) ++ (chunks c).map Event.tx, s.gpioCount + 1,
        s.txCount + (chunks c).length⟩, true) := by
  show sendDataLoop allOk (chunks c) ⟨s.events ++ [Event.dc true], s.gpioCount + 1, s.txCount⟩ = _
  rw [sendDataLoop_allOk]

theorem sendBatch_allOk (l : List commandAndData) (s : RunState) :
    sendBatch allOk l s =
      (⟨s.events ++ batchEvents l, s.gpioCount + (l.map cadGpio).sum,
        s.txCount + (l.map cadTx).sum⟩, true) := by
  induction l generalizing s with
  | nil => simp [sendBatch, batchEvents]
  | cons cad rest ih =>
    by_cases hd : cad.data.length = 0
    · simp [sendBatch, sendCommand, dcOut, txn, allOk_gpio, allOk_txOk, hd, ih,
        batchEvents, cadEvents, cadGpio, cadTx, List.append_assoc]
      omega
    · by_cases hs : cad.sleepMs > 0
      · simp [sendBatch, sendCommand, dcOut, txn, allOk_gpio, allOk_txOk, hd, hs,
          sendData_allOk, ih, batchEvents, cadEvents, cadGpio, cadTx, List.append_assoc]
        omega
      · simp [sendBatch, sendCommand, dcOut, txn, allOk_gpio, allOk_txOk, hd, hs,
          sendData_allOk, ih, batchEvents, cadEvents, cadGpio, cadTx, List.append_assoc]
        omega

theorem setWindow_allOk (opts : Opts) (x0 y0 x1 y1 : Int) (s : RunState) :
    SetWindow allOk opts x0 y0 x1 y1 s =
      (⟨s.events ++ batchEvents (setWindowCmds opts x0 y0 x1 y1),
        s.gpioCount + 5, s.txCount + 5⟩, true) := by
  show sendBatch allOk (setWindowCmds opts x0 y0 x1 y1) s = _
  rw [sendBatch_allOk]
  simp [setWindowCmds, cadGpio, cadTx, chunks_small, ChunkSize]

theorem displayImage_allOk (opts : Opts) (x y : Int) (img : Image) (s : RunState) :
    DisplayImage allOk opts x y img s
      = sendData allOk
          (pixelBuf img
            (((img.bounds.add ⟨x, y⟩).intersect (visibleRect opts)).sub ⟨x, y⟩))
          (SetWindow allOk opts
            ((img.bounds.add ⟨x, y⟩).intersect (visibleRect opts)).min.x
            ((img.bounds.add ⟨x, y⟩).intersect (visibleRect opts)).min.y
            (((img.bounds.add ⟨x, y⟩).intersect (visibleRect opts)).max.x - 1)
            (((img.bounds.add ⟨x, y⟩).intersect (visibleRect opts)).max.y - 1) s).1 := by
  simp only [DisplayImage, setWindow_allOk]
  simp

theorem intRange_length (lo hi : Int) : (intRange lo hi).length = (hi - lo).toNat := by
  rw [intRange, List.length_map, List.length_range]

theorem length_flatMap_const {α β : Type} (l : List α) (f : α → List β) (k : Nat)
    (h : ∀ a ∈ l, (f a).length = k) : (l.flatMap f).length = l.length * k := by
  induction l with
  | nil => simp
  | cons a t ih =>
    simp only [List.flatMap_cons, List.length_append, List.length_cons]
    rw [h a (by simp), ih (fun b hb => h b (by simp [hb]))]
    ring

theorem pixelBuf_length (img : Image) (b : Rectangle) :
    (pixelBuf img b).length
      = 2 * ((b.max.x - b.min.x).toNat * (b.max.y - b.min.y).toNat) := by
  have houter := length_flatMap_const (intRange b.min.x b.max.x)
    (fun x => (intRange b.min.y b.max.y).flatMap (fun y =>
      [(RGBATo565 (img.px x y) >>> 8) % 256, RGBATo565 (img.px x y) % 256]))
    ((b.max.y - b.min.y).toNat * 2)
    (fun xx _ => by
      have hinner := length_flatMap_const (intRange b.min.y b.max.y)
        (fun y => [(RGBATo565 (img.px xx y) >>> 8) % 256, RGBATo565 (img.px xx y) % 256])
        2 (fun _ _ => rfl)
      rw [intRange_length] at hinner
      exact hinner)
  show ((intRange b.min.x b.max.x).flatMap (fun x =>
    (intRange b.min.y b.max.y).flatMap (fun y =>
      [(RGBATo565 (img.px x y) >>> 8) % 256, RGBATo565 (img.px x y) % 256]))).length = _
  rw [houter, intRange_length]
  ring

/-! ## Claim C2 (amended): DisplayImage with a fully-outside image -/

/-- Claim C2, amended: when the image bounds shifted by `(x, y)` do not
intersect the visible rectangle (the Go intersection returns the zero
rectangle), `DisplayImage` still performs a set-window — on the
degenerate window `(0, 0, -1, -1)` — but streams no pixel bytes: the
trace is exactly the degenerate `SetWindow` trace plus the data-phase dc
toggle, with no further transport transaction (same transaction list as
the window set alone). -/
theorem displayImage_outside (opts : Opts) (x y : Int) (img : Image)
    (hempty : (img.bounds.add ⟨x, y⟩).intersect (visibleRect opts) = Rectangle.zr) :
    (DisplayImage allOk opts x y img s0).1.events =
      (SetWindow allOk opts 0 0 (-1) (-1) s0).1.events ++ [Event.dc true]
    ∧ (DisplayImage allOk opts x y img s0).1.events.filter Event.isTx
        = (SetWindow allOk opts 0 0 (-1) (-1) s0).1.events.filter Event.isTx
    ∧ (DisplayImage allOk opts x y img s0).2 = true := by
  have hrw := displayImage_allOk opts x y img s0
  rw [hempty] at hrw
  have hW : SetWindow allOk opts Rectangle.zr.min.x Rectangle.zr.min.y
      (Rectangle.zr.max.x - 1) (Rectangle.zr.max.y - 1) s0
      = SetWindow allOk opts 0 0 (-1) (-1) s0 := by norm_num [Rectangle.zr]
  rw [hW] at hrw
  have hbuf : pixelBuf img (Rectangle.zr.sub ⟨x, y⟩) = [] := by
    simp [pixelBuf, Rectangle.sub, Rectangle.zr, intRange]
  rw [hbuf, sendData_allOk, chunks_nil] at hrw
  simp only [List.map_nil, List.append_nil, List.length_nil, Nat.add_zero] at hrw
  refine ⟨?_, ?_, ?_⟩
  · rw [hrw]
  · rw [hrw]
    simp [List.filter_append, Event.isTx]
  · rw [hrw]

/-- Counterexample to claim C2 as stated: a concrete image placed fully
outside the panel (x = 1000) for which `DisplayImage` nevertheless emits
a column-address-set command. -/
theorem displayImage_outside_counterexample :
    ((testImg.bounds.add ⟨1000, 0⟩).intersect (visibleRect DefaultOpts) = Rectangle.zr)
    ∧ ((DisplayImage allOk DefaultOpts 1000 0 testImg s0).1.events.contains
        (Event.tx [ST7735_CASET])) := by
  decide

/-- Witness for the amended C2 at the same concrete fully-outside
input. -/
theorem displayImage_outside_witness :
    (DisplayImage allOk DefaultOpts 1000 0 testImg s0).1.events =
      (SetWindow allOk DefaultOpts 0 0 (-1) (-1) s0).1.events ++ [Event.dc true]
    ∧ (DisplayImage allOk DefaultOpts 1000 0 testImg s0).1.events.filter Event.isTx
        = (SetWindow allOk DefaultOpts 0 0 (-1) (-1) s0).1.events.filter Event.isTx
    ∧ (DisplayImage allOk DefaultOpts 1000 0 testImg s0).2 = true :=
  displayImage_outside DefaultOpts 1000 0 testImg (by decide)


/-! ## Claim C5: DisplayImage clipping and pixel streaming -/

/-- Claim C5: for an image whose shifted bounds overlap the visible
rectangle (partially exceeding it or not), `DisplayImage` sets the
window to exactly the clipped rectangle (the intersection), then streams
the pixel buffer of the clipped region — built by the column-major
nested loops of `pixelBuf` (outer x, inner y) — as data-phase chunks,
and the streamed byte count is `2 * clipped_width * clipped_height`. -/
theorem displayImage_clip (opts : Opts) (x y : Int) (img : Image)
    (_hne : ((img.bounds.add ⟨x, y⟩).intersect (visibleRect opts)).isEmptyRect = false) :
    (DisplayImage allOk opts x y img s0).2 = true
    ∧ (DisplayImage allOk opts x y img s0).1.events =
        (SetWindow allOk opts
            ((img.bounds.add ⟨x, y⟩).intersect (visibleRect opts)).min.x
            ((img.bounds.add ⟨x, y⟩).intersect (visibleRect opts)).min.y
            (((img.bounds.add ⟨x, y⟩).intersect (visibleRect opts)).max.x - 1)
            (((img.bounds.add ⟨x, y⟩).intersect (visibleRect opts)).max.y - 1) s0).1.events
          ++ [Event.dc true]
          ++ (chunks (pixelBuf img
                (((img.bounds.add ⟨x, y⟩).intersect (visibleRect opts)).sub ⟨x, y⟩))).map
              Event.tx
    ∧ (pixelBuf img
        (((img.bounds.add ⟨x, y⟩).intersect (visibleRect opts)).sub ⟨x, y⟩)).length
        = 2 * ((((img.bounds.add ⟨x, y⟩).intersect (visibleRect opts)).max.x
                  - ((img.bounds.add ⟨x, y⟩).intersect (visibleRect opts)).min.x).toNat
               * ((((img.bounds.add ⟨x, y⟩).intersect (visibleRect opts)).max.y
                  - ((img.bounds.add ⟨x, y⟩).intersect (visibleRect opts)).min.y).toNat)) := by
  have hrw := displayImage_allOk opts x y img s0
  rw [sendData_allOk] at hrw
  refine ⟨by rw [hrw], ?_, ?_⟩
  · rw [hrw]
  · rw [pixelBuf_length]
    have h1 : (((img.bounds.add ⟨x, y⟩).intersect (visibleRect opts)).sub ⟨x, y⟩).max.x
        - (((img.bounds.add ⟨x, y⟩).intersect (visibleRect opts)).sub ⟨x, y⟩).min.x
        = ((img.bounds.add ⟨x, y⟩).intersect (visibleRect opts)).max.x
          - ((img.bounds.add ⟨x, y⟩).intersect (visibleRect opts)).min.x := by
      simp [Rectangle.sub]
    have h2 : (((img.bounds.add ⟨x, y⟩).intersect (visibleRect opts)).sub ⟨x, y⟩).max.y
        - (((img.bounds.add ⟨x, y⟩).intersect (visibleRect opts)).sub ⟨x, y⟩).min.y
        = ((img.bounds.add ⟨x, y⟩).intersect (visibleRect opts)).max.y
          - ((img.bounds.add ⟨x, y⟩).intersect (visibleRect opts)).min.y := by
      simp [Rectangle.sub]
    rw [h1, h2]

/-- Witness for C5: the clipping statement at a concrete 100×200 image
(larger than the 80×160 default panel) placed at the origin. -/
theorem displayImage_clip_witness :
    (((bigImg.bounds.add ⟨0, 0⟩).intersect (visibleRect DefaultOpts)).isEmptyRect
      = false)
    ∧ ((DisplayImage allOk DefaultOpts 0 0 bigImg s0).2 = true
    ∧ (DisplayImage allOk DefaultOpts 0 0 bigImg s0).1.events =
        (SetWindow allOk DefaultOpts
            ((bigImg.bounds.add ⟨0, 0⟩).intersect (visibleRect DefaultOpts)).min.x
            ((bigImg.bounds.add ⟨0, 0⟩).intersect (visibleRect DefaultOpts)).min.y
            (((bigImg.bounds.add ⟨0, 0⟩).intersect (visibleRect DefaultOpts)).max.x - 1)
            (((bigImg.bounds.add ⟨0, 0⟩).intersect (visibleRect DefaultOpts)).max.y - 1)
            s0).1.events
          ++ [Event.dc true]
          ++ (chunks (pixelBuf bigImg
                (((bigImg.bounds.add ⟨0, 0⟩).intersect (visibleRect DefaultOpts)).sub
                  ⟨0, 0⟩))).map Event.tx
    ∧ (pixelBuf bigImg
        (((bigImg.bounds.add ⟨0, 0⟩).intersect (visibleRect DefaultOpts)).sub ⟨0, 0⟩)).length
        = 2 * ((((bigImg.bounds.add ⟨0, 0⟩).intersect (visibleRect DefaultOpts)).max.x
                  - ((bigImg.bounds.add ⟨0, 0⟩).intersect (visibleRect DefaultOpts)).min.x).toNat
               * ((((bigImg.bounds.add ⟨0, 0⟩).intersect (visibleRect DefaultOpts)).max.y
                  - ((bigImg.bounds.add ⟨0, 0⟩).intersect (visibleRect DefaultOpts)).min.y).toNat))) :=
  ⟨by decide, displayImage_clip DefaultOpts 0 0 bigImg (by decide)⟩


/-! ## Claim C7: the fixed initialization sequence -/

/-- Claim C7: for every panel geometry, `Init` sends the same fixed
sequence of command opcodes in the fixed order, with the same parameter
bytes and counts of dc toggles and transactions; the emitted bytes are
independent of the geometry except for the parameter bytes of the
column-address-set and row-address-set steps (the only `opts`-dependent
entries in the trace below). -/
theorem init_fixed_sequence (opts : Opts) :
    (initBatch opts).map commandAndData.cmd =
      [[ST7735_SWRESET], [ST7735_SLPOUT], [ST7735_FRMCTR1], [ST7735_FRMCTR2],
       [ST7735_FRMCTR3], [ST7735_INVCTR], [ST7735_PWCTR1], [ST7735_PWCTR2],
       [ST7735_PWCTR4], [ST7735_PWCTR5], [ST7735_VMCTR1], [ST7735_INVON],
       [ST7735_MADCTL], [ST7735_COLMOD], [ST7735_CASET], [ST7735_RASET],
       [ST7735_GMCTRP1], [ST7735_GMCTRN1], [ST7735_NORON], [ST7735_DISPON]]
    ∧ Init allOk opts s0 =
      (⟨[Event.dc false, Event.tx [ST7735_SWRESET],
         Event.dc false, Event.tx [ST7735_SLPOUT],
         Event.dc false, Event.tx [ST7735_FRMCTR1],
         Event.dc true, Event.tx [0x01, 0x2C, 0x2D],
         Event.dc false, Event.tx [ST7735_FRMCTR2],
         Event.dc true, Event.tx [0x01, 0x2C, 0x2D],
         Event.dc false, Event.tx [ST7735_FRMCTR3],
         Event.dc true, Event.tx [0x01, 0x2C, 0x2D, 0x01, 0x2C, 0x2D],
         Event.dc false, Event.tx [ST7735_INVCTR],
         Event.dc true, Event.tx [0x07],
         Event.dc false, Event.tx [ST7735_PWCTR1],
         Event.dc true, Event.tx [0xA2, 0x02, 0x84],
         Event.dc false, Event.tx [ST7735_PWCTR2],
         Event.dc true, Event.tx [0x0A, 0x00],
         Event.dc false, Event.tx [ST7735_PWCTR4],
         Event.dc true, Event.tx [0x8A, 0x2A],
         Event.dc false, Event.tx [ST7735_PWCTR5],
         Event.dc true, Event.tx [0x8A, 0xEE],
         Event.dc false, Event.tx [ST7735_VMCTR1],
         Event.dc true, Event.tx [0x0E],
         Event.dc false, Event.tx [ST7735_INVON],
         Event.dc false, Event.tx [ST7735_MADCTL],
         Event.dc true, Event.tx [0xC8],
         Event.dc false, Event.tx [ST7735_COLMOD],
         Event.dc true, Event.tx [0x05],
         Event.dc false, Event.tx [ST7735_CASET],
         Event.dc true,
         Event.tx [0x00, opts.offsetLeft, 0x00,
                   (opts.width + opts.offsetLeft + 255) % 256],
         Event.dc false, Event.tx [ST7735_RASET],
         Event.dc true,
         Event.tx [0x00, opts.offsetTop, 0x00,
                   (opts.height + opts.offsetTop + 255) % 256],
         Event.dc false, Event.tx [ST7735_GMCTRP1],
         Event.dc true,
         Event.tx [0x02, 0x1c, 0x07, 0x12, 0x37, 0x32, 0x29, 0x2d, 0x29, 0x25,
                   0x2B, 0x39, 0x00, 0x01, 0x03, 0x10],
         Event.dc false, Event.tx [ST7735_GMCTRN1],
         Event.dc true,
         Event.tx [0x03, 0x1d, 0x07, 0x06, 0x2E, 0x2C, 0x29, 0x2D, 0x2E, 0x2E,
                   0x37, 0x3F, 0x00, 0x00, 0x02, 0x10],
         Event.dc false, Event.tx [ST7735_NORON],
         Event.dc false, Event.tx [ST7735_DISPON]], 35, 35⟩, true) := by
  refine ⟨rfl, ?_⟩
  show sendBatch allOk (initBatch opts) s0 = _
  rw [sendBatch_allOk]
  simp [batchEvents, cadEvents, cadGpio, cadTx, initBatch, chunks_small, ChunkSize, s0]

/-! ## Claim C1: the initialization settle delays (code bug) -/

/-- Claim C1 fails on the code: `sendBatch` `continue`s on every entry
with an empty parameter list before reaching `time.Sleep`, and the four
delay-bearing init entries (software-reset 150ms, sleep-out 500ms,
normal-display-on 100ms, display-on 100ms) all have empty parameter
lists, so the emitted trace of `Init` contains no sleep at all even
though the batch declares exactly those four positive delays. -/
theorem init_sleeps_skipped :
    ((Init allOk DefaultOpts s0).1.events.filter Event.isSleep = [])
    ∧ (((initBatch DefaultOpts).map commandAndData.sleepMs).filter
        (fun d => decide (0 < d)) = [150, 500, 100, 100]) := by
  decide


/-! ## Abort-on-failure lemmas -/

theorem sendDataLoop_pass (o : Oracles) (k : Nat) (hk0 : ∀ i, i < k → o.txOk i = true) :
    ∀ (l : List (List Nat)) (s : RunState), s.txCount + l.length ≤ k →
      sendDataLoop o l s =
        (⟨s.events ++ l.map Event.tx, s.gpioCount, s.txCount + l.length⟩, true) := by
  intro l
  induction l with
  | nil => intro s hle; simp [sendDataLoop]
  | cons ch rest ih =>
    intro s hle
    have hle2 : s.txCount + (rest.length + 1) ≤ k := by
      rw [List.length_cons] at hle
      exact hle
    have hok : o.txOk s.txCount = true := hk0 _ (by omega)
    simp only [sendDataLoop, txn, hok, Bool.not_true, Bool.false_eq_true, if_false,
      List.map_cons, List.length_cons]
    rw [ih ⟨s.events ++ [Event.tx ch], s.gpioCount, s.txCount + 1⟩ (by
      show s.txCount + 1 + rest.length ≤ k
      omega)]
    rw [Prod.mk.injEq]
    refine ⟨?_, rfl⟩
    rw [RunState.mk.injEq]
    refine ⟨by rw [List.append_assoc]; rfl, rfl, by
      show s.txCount + 1 + rest.length = s.txCount + (rest.length + 1)
      omega⟩

theorem sendDataLoop_abort (o : Oracles) (k : Nat) (hk0 : ∀ i, i < k → o.txOk i = true)
    (hk1 : o.txOk k = false) :
    ∀ (l : List (List Nat)) (s : RunState), s.txCount ≤ k → k < s.txCount + l.length →
      (sendDataLoop o l s).2 = false ∧ (sendDataLoop o l s).1.txCount = k + 1 := by
  intro l
  induction l with
  | nil =>
    intro s h1 h2
    exfalso
    simp at h2
    omega
  | cons ch rest ih =>
    intro s h1 h2
    by_cases he : s.txCount = k
    · simp [sendDataLoop, txn, he, hk1]
    · have hlt : s.txCount < k := Nat.lt_of_le_of_ne h1 he
      have hok := hk0 _ hlt
      simp only [sendDataLoop, txn, hok, Bool.not_true, Bool.false_eq_true, if_false]
      exact ih ⟨s.events ++ [Event.tx ch], s.gpioCount, s.txCount + 1⟩ (by simp; omega)
        (by simp at h2 ⊢; omega)

theorem sendData_unfold (o : Oracles) (c : List Nat) (s : RunState)
    (hgp : o.gpioOk s.gpioCount = true) :
    sendData o c s = sendDataLoop o (chunks c)
      ⟨s.events ++ [Event.dc true], s.gpioCount + 1, s.txCount⟩ := by
  simp [sendData, dcOut, hgp]

theorem sendBatch_cmd_fail (o : Oracles) (hg : ∀ n, o.gpioOk n = true)
    (cad : commandAndData) (rest : List commandAndData) (s : RunState)
    (hf : o.txOk s.txCount = false) :
    sendBatch o (cad :: rest) s =
      (⟨s.events ++ [Event.dc false, Event.tx cad.cmd], s.gpioCount + 1,
        s.txCount + 1⟩, false) := by
  simp [sendBatch, sendCommand, dcOut, txn, hg, hf, List.append_assoc]

theorem sendBatch_cmd_skip (o : Oracles) (hg : ∀ n, o.gpioOk n = true)
    (cad : commandAndData) (rest : List commandAndData) (s : RunState)
    (hok : o.txOk s.txCount = true) (hd : cad.data.length = 0) :
    sendBatch o (cad :: rest) s =
      sendBatch o rest ⟨s.events ++ [Event.dc false, Event.tx cad.cmd],
        s.gpioCount + 1, s.txCount + 1⟩ := by
  simp [sendBatch, sendCommand, dcOut, txn, hg, hok, hd, List.append_assoc]

theorem sendBatch_cmd_data (o : Oracles) (hg : ∀ n, o.gpioOk n = true)
    (cad : commandAndData) (rest : List commandAndData) (s : RunState)
    (hok : o.txOk s.txCount = true) (hd : ¬cad.data.length = 0) :
    sendBatch o (cad :: rest) s =
      (if !(sendDataLoop o (chunks cad.data)
             ⟨s.events ++ [Event.dc false, Event.tx cad.cmd, Event.dc true],
              s.gpioCount + 2, s.txCount + 1⟩).2
       then ((sendDataLoop o (chunks cad.data)
             ⟨s.events ++ [Event.dc false, Event.tx cad.cmd, Event.dc true],
              s.gpioCount + 2, s.txCount + 1⟩).1, false)
       else sendBatch o rest
         (if cad.sleepMs > 0
          then ⟨(sendDataLoop o (chunks cad.data)
                  ⟨s.events ++ [Event.dc false, Event.tx cad.cmd, Event.dc true],
                   s.gpioCount + 2, s.txCount + 1⟩).1.events
                  ++ [Event.sleepMs cad.sleepMs],
                (sendDataLoop o (chunks cad.data)
                  ⟨s.events ++ [Event.dc false, Event.tx cad.cmd, Event.dc true],
                   s.gpioCount + 2, s.txCount + 1⟩).1.gpioCount,
                (sendDataLoop o (chunks cad.data)
                  ⟨s.events ++ [Event.dc false, Event.tx cad.cmd, Event.dc true],
                   s.gpioCount + 2, s.txCount + 1⟩).1.txCount⟩
          else (sendDataLoop o (chunks cad.data)
                 ⟨s.events ++ [Event.dc false, Event.tx cad.cmd, Event.dc true],
                  s.gpioCount + 2, s.txCount + 1⟩).1)) := by
  simp [sendBatch, sendCommand, sendData, dcOut, txn, hg, hok, hd, List.append_assoc]


theorem sendBatch_abort (o : Oracles) (hg : ∀ n, o.gpioOk n = true) (k : Nat)
    (hk0 : ∀ i, i < k → o.txOk i = true) (hk1 : o.txOk k = false) :
    ∀ (cmds : List commandAndData) (s : RunState), s.txCount ≤ k →
      k < s.txCount + batchTxTotal cmds →
      (sendBatch o cmds s).2 = false ∧ (sendBatch o cmds s).1.txCount = k + 1 := by
  intro cmds
  induction cmds with
  | nil =>
    intro s h1 h2
    exfalso
    simp [batchTxTotal] at h2
    omega
  | cons cad rest ih =>
    intro s h1 h2
    by_cases he : s.txCount = k
    · rw [sendBatch_cmd_fail o hg cad rest s (he ▸ hk1)]
      exact ⟨rfl, by show s.txCount + 1 = k + 1; omega⟩
    · have hlt : s.txCount < k := Nat.lt_of_le_of_ne h1 he
      have hok := hk0 _ hlt
      by_cases hd : cad.data.length = 0
      · rw [sendBatch_cmd_skip o hg cad rest s hok hd]
        refine ih _ (by show s.txCount + 1 ≤ k; omega) ?_
        show k < s.txCount + 1 + batchTxTotal rest
        simp [batchTxTotal, cadTx, hd] at h2
        simp [batchTxTotal]
        omega
      · rw [sendBatch_cmd_data o hg cad rest s hok hd]
        have h2' : k < s.txCount + (1 + (chunks cad.data).length) + batchTxTotal rest := by
          simp [batchTxTotal, cadTx, hd] at h2
          simp [batchTxTotal]
          omega
        by_cases hin : k < s.txCount + 1 + (chunks cad.data).length
        · obtain ⟨ha1, ha2⟩ := sendDataLoop_abort o k hk0 hk1 (chunks cad.data)
            ⟨s.events ++ [Event.dc false, Event.tx cad.cmd, Event.dc true],
             s.gpioCount + 2, s.txCount + 1⟩
            (by show s.txCount + 1 ≤ k; omega)
            (by show k < s.txCount + 1 + (chunks cad.data).length; omega)
          rw [ha1]
          simp only [Bool.not_false, if_true]
          exact ⟨trivial, ha2⟩
        · rw [sendDataLoop_pass o k hk0 (chunks cad.data)
            ⟨s.events ++ [Event.dc false, Event.tx cad.cmd, Event.dc true],
             s.gpioCount + 2, s.txCount + 1⟩
            (by show s.txCount + 1 + (chunks cad.data).length ≤ k; omega)]
          simp only [Bool.not_true, Bool.false_eq_true, if_false]
          by_cases hs : cad.sleepMs > 0
          · rw [if_pos hs]
            refine ih _ ?_ ?_
            · show s.txCount + 1 + (chunks cad.data).length ≤ k
              omega
            · show k < (s.txCount + 1 + (chunks cad.data).length) + batchTxTotal rest
              omega
          · rw [if_neg hs]
            refine ih _ ?_ ?_
            · show s.txCount + 1 + (chunks cad.data).length ≤ k
              omega
            · show k < (s.txCount + 1 + (chunks cad.data).length) + batchTxTotal rest
              omega


/-! ## Claim C8: abort at the first transport failure -/

/-- Claim C8: for a chunked `sendData` payload and for a command batch
(as `Init` uses), if every transport transaction before index `k`
succeeds and the `k`-th fails (and the operation would issue more than
`k` transactions), then the operation returns failure immediately and
exactly `k + 1` transactions were attempted: no transaction after the
`k`-th is issued and nothing is retried. -/
theorem abort_on_first_failure :
    (∀ (o : Oracles) (c : List Nat) (k : Nat),
       (∀ n, o.gpioOk n = true) → (∀ i, i < k → o.txOk i = true) →
       o.txOk k = false → k < (chunks c).length →
       (sendData o c s0).2 = false ∧ (sendData o c s0).1.txCount = k + 1)
    ∧ (∀ (o : Oracles) (cmds : List commandAndData) (k : Nat),
       (∀ n, o.gpioOk n = true) → (∀ i, i < k → o.txOk i = true) →
       o.txOk k = false → k < batchTxTotal cmds →
       (sendBatch o cmds s0).2 = false ∧ (sendBatch o cmds s0).1.txCount = k + 1) := by
  constructor
  · intro o c k hg hk0 hk1 hlen
    rw [sendData_unfold o c s0 (hg 0)]
    exact sendDataLoop_abort o k hk0 hk1 (chunks c)
      ⟨s0.events ++ [Event.dc true], s0.gpioCount + 1, s0.txCount⟩
      (by show (0 : Nat) ≤ k; omega)
      (by show k < 0 + (chunks c).length; omega)
  · intro o cmds k hg hk0 hk1 htot
    exact sendBatch_abort o hg k hk0 hk1 cmds s0
      (by show (0 : Nat) ≤ k; omega)
      (by show k < 0 + batchTxTotal cmds; omega)

/-- Witness for C8: the transport that fails exactly on transaction
index 1, applied to a two-chunk payload and to the default init batch. -/
theorem abort_on_first_failure_witness :
    ((sendData failAt1 (List.replicate (ChunkSize + 1) 0) s0).2 = false
      ∧ (sendData failAt1 (List.replicate (ChunkSize + 1) 0) s0).1.txCount = 2)
    ∧ ((sendBatch failAt1 (initBatch DefaultOpts) s0).2 = false
      ∧ (sendBatch failAt1 (initBatch DefaultOpts) s0).1.txCount = 2) :=
  ⟨abort_on_first_failure.1 failAt1 (List.replicate (ChunkSize + 1) 0) 1
     (fun _ => rfl) (by decide) (by decide)
     (by rw [chunks_repl]; simp),
   abort_on_first_failure.2 failAt1 (initBatch DefaultOpts) 1
     (fun _ => rfl) (by decide) (by decide) (by decide)⟩

end ST7735
